import Mathlib

set_option maxRecDepth 4000

/-!
Shallow embedding of `src/cobra/io/sbmlnew.py`, the SBML import/export layer
for cobra metabolic models built on libsbml.

Conventions of the embedding:
* Python functions become Lean functions; fallible code returns
  `Except PyExc`.
* Python dicts become insertion-ordered association lists keyed by their
  first occurrence (`alookup` / `aset` model `d[k]` reads and writes).
* libsbml XML attributes that the code checks against `None` (ids, flux
  bound ids, stoichiometries, parameter values, SBO terms, CV terms) are
  `Option` fields; attributes libsbml always returns as plain strings or
  numbers (names, compartments, charges) are plain fields.
* Numeric values are `Rat`.
-/

/-- Python exceptions raised by code in this module.  Every constructor
models a subclass of the Python Exception class, so a bare except-Exception
clause catches all of them. -/
inductive PyExc where
  | cobraSBMLError (msg : String)
  | nameError (name : String)
  | attributeError
  | keyError
  | valueError
  | assertionError
deriving Repr, DecidableEq

/-- Python dict read `d.get(k)`: value at the first occurrence of the key,
`none` when the key is absent. -/
def alookup {α : Type} : List (String × α) → String → Option α
  | [], _ => none
  | kv :: rest, k => if kv.1 = k then some kv.2 else alookup rest k

/-- Python dict assignment `d[k] = v`: replaces the value at the first
occurrence of the key, appends a new entry otherwise. -/
def aset {α : Type} : List (String × α) → String → α → List (String × α)
  | [], k, v => [(k, v)]
  | kv :: rest, k, v => if kv.1 = k then (kv.1, v) :: rest else kv :: aset rest k v

/-- Value stored in a cobra annotation dict: the SBO term is an int
(`getSBOTerm` returns an int), an identifiers.org entry is a string, and a
provider seen several times holds a list of strings. -/
inductive AnnValue where
  | int (n : Int)
  | str (s : String)
  | list (xs : List String)
deriving Repr, DecidableEq

/-- SBase-level data read by `annotate_cobra_from_sbase`: the optional SBO
term and the CV terms, each CV term carrying its list of resource URIs
(`getCVTerms` can be `None`). -/
structure SBaseData where
  sboTerm : Option Int := none
  cvterms : Option (List (List String)) := none
deriving Repr, DecidableEq

/-- Fbc data of an SBML species (charge and chemical formula), present when
the species has an fbc plugin. -/
structure SpeciesFbcData where
  charge : Int := 0
  chemicalFormula : String := ""
deriving Repr, DecidableEq

/-- SBML species as read from the document. -/
structure SSpecies where
  id : Option String := none
  name : String := ""
  compartment : String := ""
  boundaryCondition : Bool := false
  fbc : Option SpeciesFbcData := none
  sbase : SBaseData := {}
deriving Repr, DecidableEq

/-- Fbc gene product. -/
structure GeneProduct where
  id : String := ""
  name : String := ""
  sbase : SBaseData := {}
deriving Repr, DecidableEq

/-- SBML parameter: `constant` flag and optional value. -/
structure SParameter where
  id : String := ""
  constant : Bool := false
  value : Option Rat := none
deriving Repr, DecidableEq

/-- SBML species reference inside a reaction. -/
structure SpeciesRef where
  species : String := ""
  stoichiometry : Option Rat := none
deriving Repr, DecidableEq

/-- Boolean gene association tree of an fbc geneProductAssociation: a plain
gene product reference, or nested fbc:and / fbc:or nodes. -/
inductive FbcAssociation where
  | geneProductRef (gene : String)
  | fbcAnd (children : List FbcAssociation)
  | fbcOr (children : List FbcAssociation)

/-- Fbc plugin of an SBML reaction. -/
structure SReactionFbc where
  lowerFluxBound : Option String := none
  upperFluxBound : Option String := none
  geneProductAssociation : Option FbcAssociation := none

/-- SBML reaction as read from the document. -/
structure SReaction where
  id : Option String := none
  name : String := ""
  reactants : List SpeciesRef := []
  products : List SpeciesRef := []
  fbc : Option SReactionFbc := none
  sbase : SBaseData := {}

/-- Fbc flux objective. -/
structure FluxObjective where
  reaction : String := ""
  coefficient : Rat := 0
deriving Repr, DecidableEq

/-- Fbc objective with its type string ("maximize" or "minimize"). -/
structure SObjective where
  id : String := ""
  otype : String := ""
  fluxObjectives : List FluxObjective := []
deriving Repr, DecidableEq

/-- Fbc listOfObjectives with its activeObjective attribute. -/
structure ListOfObjectives where
  activeObjective : String := ""
  objectives : List SObjective := []
deriving Repr, DecidableEq

/-- Fbc plugin of the SBML model. -/
structure SModelFbc where
  strict : Bool := true
  geneProducts : List GeneProduct := []
  listOfObjectives : Option ListOfObjectives := some {}

/-- SBML compartment. -/
structure SCompartment where
  id : String := ""
  name : String := ""
deriving Repr, DecidableEq

/-- SBML model: the object tree `_sbml_to_model` walks. -/
structure SModel where
  id : String := ""
  name : String := ""
  compartments : List SCompartment := []
  species : List SSpecies := []
  reactions : List SReaction := []
  parameters : List SParameter := []
  fbc : Option SModelFbc := none

/-- SBML document shell built by `_model_to_sbml` before it fails. -/
structure SDoc where
  fbcRequired : Bool := false
  sboTerm : Option String := none
  model : SModel := {}

/-- Cobra metabolite (the fields `_sbml_to_model` fills). -/
structure Metabolite where
  id : String
  name : String := ""
  compartment : String := ""
  charge : Option Int := none
  formula : Option String := none
  annot : List (String × AnnValue) := []
deriving Repr, DecidableEq

/-- Cobra gene. -/
structure CGene where
  id : String
  name : String := ""
  annot : List (String × AnnValue) := []
deriving Repr, DecidableEq

/-- Cobra reaction: bounds, net stoichiometry keyed by metabolite id, and
the gene reaction rule string. -/
structure CReaction where
  id : String
  name : String := ""
  lower_bound : Rat := 0
  upper_bound : Rat := 1000
  metabolites : List (String × Rat) := []
  gene_reaction_rule : String := ""
  annot : List (String × AnnValue) := []
deriving Repr, DecidableEq

/-- Cobra model. -/
structure CModel where
  id : String := ""
  name : String := ""
  compartments : List (String × String) := []
  metabolites : List Metabolite := []
  genes : List CGene := []
  reactions : List CReaction := []
  objective_coefficients : List (String × Rat) := []
  objective_direction : String := "max"
deriving Repr, DecidableEq

/-- Source line 48: map from fbc objective types to cobra directions. -/
def LONG_SHORT_DIRECTION : List (String × String) :=
  [("maximize", "max"), ("minimize", "min")]

/-- Source line 49. -/
def SHORT_LONG_DIRECTION : List (String × String) :=
  [("min", "minimize"), ("max", "maximize")]

/-- Source line 51. -/
def LOWER_BOUND : Int := -1000

/-- Source line 52. -/
def UPPER_BOUND : Int := 1000

/-- Source line 53. -/
def LOWER_BOUND_ID : String := "cobra_default_lb"

/-- Source line 54. -/
def UPPER_BOUND_ID : String := "cobra_default_ub"

/-- Source line 55. -/
def ZERO_BOUND_ID : String := "cobra_0_bound"

/-- Source `_check_required(sbase, value, attribute)` (lines 549-564):
raises CobraSBMLError when a required attribute is missing. -/
def checkRequired {α : Type} (value : Option α) (attr : String) : Except PyExc α :=
  match value with
  | none => .error (.cobraSBMLError ("required attribute " ++ attr ++ " not found"))
  | some v => .ok v

/-- Splits a string at its first slash, like Python `s.split("/", 1)` when
that yields two parts; `none` when the string has no slash (where the
two-name unpacking in the source raises ValueError). -/
def splitCharsOnceSlash : List Char → Option (List Char × List Char)
  | [] => none
  | c :: cs =>
      if c = '/' then some ([], cs)
      else (splitCharsOnceSlash cs).map (fun p => (c :: p.1, p.2))

/-- String version of `splitCharsOnceSlash`. -/
def splitOnceSlash (s : String) : Option (String × String) :=
  (splitCharsOnceSlash s.toList).map (fun p => (p.1.asString, p.2.asString))

/-- Lines 590-599: a CV-term resource URI conforms when it starts with
"http://identifiers.org/" (23 characters) and its remainder `uri[23:]`
splits at a slash into provider and identifier; otherwise `none` (the code
warns and skips the URI). -/
def parseIdentifiersUri (uri : String) : Option (String × String) :=
  if uri.take 23 = "http://identifiers.org/" then splitOnceSlash (uri.drop 23)
  else none

/-- Lines 601-607: store one identifiers.org entry in the annotation dict.
A fresh provider maps to the bare identifier string; a provider holding a
string becomes a two-element list; a provider holding a list is appended
to; a provider holding the int SBO term raises AttributeError, since the
isinstance test skips the int and `int` has no `append`. -/
def addAnnot (annot : List (String × AnnValue)) (provider identifier : String) :
    Except PyExc (List (String × AnnValue)) :=
  match alookup annot provider with
  | none => .ok (aset annot provider (.str identifier))
  | some (.str s) => .ok (aset annot provider (.list [s, identifier]))
  | some (.list xs) => .ok (aset annot provider (.list (xs ++ [identifier])))
  | some (.int _) => .error .attributeError

/-- Lines 589-607, one loop iteration: a non-conforming URI is skipped with
a warning and leaves the annotation unchanged; a conforming one is stored. -/
def processUri (annot : List (String × AnnValue)) (uri : String) :
    Except PyExc (List (String × AnnValue)) :=
  match parseIdentifiersUri uri with
  | none => .ok annot
  | some pi => addAnnot annot pi.1 pi.2

/-- Source `annotate_cobra_from_sbase` (lines 567-607) on the annotation
dict of a cobra object: first the SBO term (an int) under key "SBO" when
set, then every resource URI of every CV term in order; a `None` CV-term
list returns early. -/
def annotate_cobra_from_sbase (annot0 : List (String × AnnValue)) (sb : SBaseData) :
    Except PyExc (List (String × AnnValue)) :=
  let annot1 := match sb.sboTerm with
                | some n => aset annot0 "SBO" (.int n)
                | none => annot0
  match sb.cvterms with
  | none => .ok annot1
  | some terms => terms.foldlM (fun a term => term.foldlM processUri a) annot1

/-- Lines 178-195: convert one SBML species to a cobra Metabolite: the id
is required, charge and formula come from the fbc plugin when present,
then annotations are read. -/
def speciesToMetabolite (s : SSpecies) : Except PyExc Metabolite := do
  let sid ← checkRequired s.id "id"
  let annot ← annotate_cobra_from_sbase [] s.sbase
  pure { id := sid, name := s.name, compartment := s.compartment,
         charge := s.fbc.map (·.charge),
         formula := s.fbc.map (·.chemicalFormula),
         annot := annot }

/-- Lines 198-204: convert one gene product.  `gp.name` is a libsbml string
and never `None`, so the `gp.get` fallback branch of the source is dead. -/
def geneProductToGene (gp : GeneProduct) : Except PyExc CGene := do
  let annot ← annotate_cobra_from_sbase [] gp.sbase
  pure { id := gp.id, name := gp.name, annot := annot }

/-- Source `model.getParameter(pid)`: first parameter with that id, `none`
otherwise. -/
def getParameter (params : List SParameter) (pid : String) : Option SParameter :=
  params.find? (fun p => p.id == pid)

/-- Lines 225-233 for one bound: `p.constant and (p.value is not None)`
sets the bound from the parameter value, anything else raises
CobraSBMLError; attribute access on a missing parameter (`None`) raises
AttributeError. -/
def paramValue (p? : Option SParameter) : Except PyExc Rat :=
  match p? with
  | none => .error .attributeError
  | some p =>
      match p.constant, p.value with
      | true, some v => .ok v
      | _, _ => .error (.cobraSBMLError ("No constant bound " ++ p.id ++ " for reaction"))

/-- Lines 214-233: resolve the flux bounds of a reaction.  A reaction without an
fbc plugin raises CobraSBMLError; each bound id is a required attribute;
the referenced parameters must be constant and valued. -/
def setBounds (params : List SParameter) (r : SReaction) : Except PyExc (Rat × Rat) :=
  match r.fbc with
  | none => .error (.cobraSBMLError "No flux bounds on reaction")
  | some rfbc => do
      let lbId ← checkRequired rfbc.lowerFluxBound "lowerFluxBound"
      let ubId ← checkRequired rfbc.upperFluxBound "upperFluxBound"
      let lb ← paramValue (getParameter params lbId)
      let ub ← paramValue (getParameter params ubId)
      pure (lb, ub)

/-- Reads as `st[sid] = f (st[sid])` on a defaultdict with default 0. -/
def updStoich (st : List (String × Rat)) (sid : String) (f : Rat → Rat) :
    List (String × Rat) :=
  aset st sid (f ((alookup st sid).getD 0))

/-- Lines 240-243: each reactant subtracts its (required) stoichiometry
from the defaultdict entry of its species. -/
def accumReactants : List SpeciesRef → List (String × Rat) →
    Except PyExc (List (String × Rat))
  | [], st => .ok st
  | sref :: rest, st => do
      let v ← checkRequired sref.stoichiometry "stoichiometry"
      accumReactants rest (updStoich st sref.species (fun x => x - v))

/-- Lines 245-247: each product adds its (required) stoichiometry. -/
def accumProducts : List SpeciesRef → List (String × Rat) →
    Except PyExc (List (String × Rat))
  | [], st => .ok st
  | sref :: rest, st => do
      let v ← checkRequired sref.stoichiometry "stoichiometry"
      accumProducts rest (updStoich st sref.species (fun x => x + v))

/-- Lines 239-247: the net stoichiometry dict of a reaction. -/
def buildStoichiometry (r : SReaction) : Except PyExc (List (String × Rat)) := do
  let st ← accumReactants r.reactants []
  accumProducts r.products st

/-- Lines 250-262: keep only entries whose species is not a boundary
species and is present among the metabolites of the model; the others are
skipped with a warning instead of being added. -/
def objectStoichiometry (boundaryIds metIds : List String)
    (st : List (String × Rat)) : List (String × Rat) :=
  st.filter (fun kv => !(boundaryIds.contains kv.1) && metIds.contains kv.1)

/-- Lines 297-316: the gene product association is fetched but the parsing
helpers are commented out, so `gpr` is always the empty string, on which
the parenthesis-stripping branch never fires. -/
def gprFromAssociation (gpa : Option FbcAssociation) : String :=
  let gpr := ""
  if gpr.startsWith "(" && gpr.endsWith ")" then ((gpr.drop 1).dropRight 1).trim
  else gpr

/-- Lines 208-316 for a single reaction: required id, annotations, bounds,
net stoichiometry filtered to known non-boundary metabolites, and the
(always empty) gene reaction rule. -/
def reactionFromSBML (params : List SParameter) (boundaryIds metIds : List String)
    (r : SReaction) : Except PyExc CReaction := do
  let rid ← checkRequired r.id "id"
  let annot ← annotate_cobra_from_sbase [] r.sbase
  let bounds ← setBounds params r
  let st ← buildStoichiometry r
  let gpa := (r.fbc.map (·.geneProductAssociation)).join
  pure { id := rid, name := r.name, annot := annot,
         lower_bound := bounds.1, upper_bound := bounds.2,
         metabolites := objectStoichiometry boundaryIds metIds st,
         gene_reaction_rule := gprFromAssociation gpa }

/-- One step of the coefficient loop of lines 334-344: a flux objective
whose reaction id is unknown raises CobraSBMLError, a known one stores its
coefficient in the dict (keyed here by the reaction id the object stands
for). -/
def coeffStep (rids : List String) (acc : List (String × Rat)) (fo : FluxObjective) :
    Except PyExc (List (String × Rat)) :=
  if rids.contains fo.reaction then .ok (aset acc fo.reaction fo.coefficient)
  else .error (.cobraSBMLError ("Objective reaction " ++ fo.reaction ++ " not found"))

/-- Lines 328-346: resolve the active objective by id (`getObjective`
returns `None` for an unknown id and `obj.getType()` then raises
AttributeError), map its type through LONG_SHORT_DIRECTION (KeyError on any
other type), and collect the flux-objective coefficients. -/
def applyObjective (lo : ListOfObjectives) (rids : List String) :
    Except PyExc (List (String × Rat) × String) :=
  match lo.objectives.find? (fun o => o.id == lo.activeObjective) with
  | none => .error .attributeError
  | some obj =>
      match alookup LONG_SHORT_DIRECTION obj.otype with
      | none => .error .keyError
      | some dir =>
          match obj.fluxObjectives.foldlM (coeffStep rids) [] with
          | .error e => .error e
          | .ok coeffs => .ok (coeffs, dir)

/-- Source `_sbml_to_model` (lines 151-348).  The missing-fbc and
non-strict conditions only emit warnings, but the gene-product and
objective sections access the model fbc plugin unconditionally, so a
document without it raises AttributeError there.  The ValueError that
`add_reactions` may raise is only warned about and does not change the
constructed reactions. -/
def _sbml_to_model (m : SModel) : Except PyExc CModel := do
  let comps := m.compartments.foldl (fun d c => aset d c.id c.name) []
  let mets ← m.species.mapM speciesToMetabolite
  let boundaryIds := (m.species.filter (·.boundaryCondition)).filterMap (·.id)
  let genes ← match m.fbc with
              | none => Except.error PyExc.attributeError
              | some fbcp => fbcp.geneProducts.mapM geneProductToGene
  let metIds := mets.map (·.id)
  let reactions ← m.reactions.mapM (reactionFromSBML m.parameters boundaryIds metIds)
  let rids := reactions.map (·.id)
  let base : CModel := { id := m.id, name := m.name, compartments := comps,
                         metabolites := mets, genes := genes, reactions := reactions }
  match m.fbc with
  | none => Except.error PyExc.attributeError
  | some fbcp =>
      match fbcp.listOfObjectives with
      | none => pure base
      | some lo => do
          let co ← applyObjective lo rids
          pure { base with objective_coefficients := co.1,
                           objective_direction := co.2 }

/-- Names bound at module level in sbmlnew.py: the imports at lines 27-45
(including the lxml names when that import succeeds) and the top-level
definitions.  Neither list, nor the Python builtin namespace, contains the
name model_id. -/
def moduleGlobals : List String :=
  ["os", "warn", "string_types", "defaultdict", "namedtuple", "libsbml",
   "Gene", "Metabolite", "Model", "Reaction", "set_objective",
   "parse", "Element", "SubElement", "ElementTree", "register_namespace",
   "ParseError", "XPath", "_with_lxml",
   "LONG_SHORT_DIRECTION", "SHORT_LONG_DIRECTION",
   "LOWER_BOUND", "UPPER_BOUND", "LOWER_BOUND_ID", "UPPER_BOUND_ID",
   "ZERO_BOUND_ID", "Unit", "UNITS_FLUX", "CobraSBMLError",
   "read_sbml_model", "write_sbml_model", "_sbml_to_model",
   "SBO_FBA_FRAMEWORK", "SBO_FLUX_BOUND", "_model_to_sbml",
   "_check_required", "annotate_cobra_from_sbase", "validate_sbml_model"]

/-- Python name resolution for a name read inside a function body: local
scope first, then the module globals (builtins hold none of the names this
module reads); an unbound name raises NameError. -/
def resolveName (localNames : List String) (name : String) : Except PyExc Unit :=
  if localNames.contains name || moduleGlobals.contains name then .ok ()
  else .error (.nameError name)

/-- Source `_model_to_sbml` (lines 356-377): after building the document
shell (namespaces, fbc required flag, SBO term, model with fbc strict),
line 374 evaluates the format argument `model_id`, a name bound neither
among the locals of the function at that point nor at module level, so a
NameError is raised before the document is returned.  Everything from line
380 on sits after the unconditional `return doc` at line 377 and is
unreachable. -/
def _model_to_sbml (cobra_model : CModel) (units : Bool) :
    Except PyExc SDoc :=
  let doc : SDoc :=
    { fbcRequired := false, sboTerm := some "SBO:0000624",
      model := { fbc := some { strict := true, geneProducts := [],
                               listOfObjectives := some {} } } }
  match resolveName ["cobra_model", "units", "sbmlns", "doc", "model", "model_fbc"]
        "model_id" with
  | .error e => .error e
  | .ok _ => .ok doc

/-- Source `write_sbml_model` (lines 116-148): builds the document with
`_model_to_sbml` and only afterwards calls `libsbml.writeSBMLToFile`; an
exception from the builder propagates and no file write happens.  The
result records the file that would be written. -/
def write_sbml_model (cobra_model : CModel) (filename : String) :
    Except PyExc (String × SDoc) :=
  match _model_to_sbml cobra_model true with
  | .error e => .error e
  | .ok doc => .ok (filename, doc)

/-- Write-then-read round trip of a cobra model through an SBML document. -/
def roundTrip (m : CModel) : Except PyExc CModel :=
  match _model_to_sbml m true with
  | .error e => .error e
  | .ok doc => _sbml_to_model doc.model

/-- Input classification of the filename argument of read_sbml_model (lines
93-104) together with the outcome of handing it to libsbml: an existing
file path, an SBML string, an object with a read method, or anything else.
The payload carries the document libsbml produced or the error that the
library reported. -/
inductive ReadInput where
  | existingFile (doc : Except PyExc SModel)
  | sbmlString (doc : Except PyExc SModel)
  | fileHandle (doc : Except PyExc SModel)
  | unsupported

/-- Body of the try block of `read_sbml_model` (lines 93-107). -/
def readInner (input : ReadInput) : Except PyExc CModel := do
  let doc ← match input with
            | .existingFile d => d
            | .sbmlString d => d
            | .fileHandle d => d
            | .unsupported =>
                Except.error (PyExc.cobraSBMLError "Input format is not supported.")
  _sbml_to_model doc

/-- Source `read_sbml_model` (lines 70-113): the whole body sits in a try
whose `except Exception` clause catches every exception this module can
raise and re-raises the one generic CobraSBMLError message. -/
def read_sbml_model (input : ReadInput) : Except PyExc CModel :=
  match readInner input with
  | .ok m => .ok m
  | .error _ => .error (.cobraSBMLError "Something went wrong reading the model.")

/-- Lines 419-424: the shared default bounds are the minimum lower bound
and maximum upper bound over the reactions of the model (Python min/max over
the attribute lists), or -1000 and 1000 for an empty model. -/
def defaultBounds (reactions : List CReaction) : Rat × Rat :=
  match reactions with
  | [] => (-1000, 1000)
  | r :: rs => (rs.foldl (fun a x => min a x.lower_bound) r.lower_bound,
                rs.foldl (fun a x => max a x.upper_bound) r.upper_bound)

/-- Python `getattr(reaction, bound_type)` for the two bound attributes;
any other attribute name raises AttributeError. -/
def getattrBound (r : CReaction) (bound_type : String) : Option Rat :=
  if bound_type = "lower_bound" then some r.lower_bound
  else if bound_type = "upper_bound" then some r.upper_bound
  else none

/-- Parameter element emitted into listOfParameters by `create_bound`. -/
structure ParamXml where
  id : String
  value : Rat
  sboTerm : String
  constant : Bool
deriving Repr, DecidableEq

/-- Source `create_bound` (lines 433-449): the bound value resolves, checked
in this order, to the shared minimum, zero, or shared maximum parameter id;
any other value creates a dedicated constant parameter named from the
reaction id and the bound type, returned here alongside the id. -/
def create_bound (min_value max_value : Rat) (reaction : CReaction)
    (bound_type : String) : Except PyExc (String × Option ParamXml) :=
  match getattrBound reaction bound_type with
  | none => .error .attributeError
  | some value =>
      if value = min_value then .ok ("cobra_default_lb", none)
      else if value = 0 then .ok ("cobra_0_bound", none)
      else if value = max_value then .ok ("cobra_default_ub", none)
      else
        let param_id := "R_" ++ reaction.id ++ "_" ++ bound_type
        .ok (param_id,
             some { id := param_id, value := value,
                    sboTerm := "SBO:0000625", constant := true })

/-- Source `validate_sbml_model` (lines 610-616): its whole body is the
single statement `assert 0 == 1`, so it raises AssertionError on every
path and never returns a validation result. -/
def validate_sbml_model (path : String) : Except PyExc Unit :=
  if (0 : Nat) = 1 then .ok () else .error .assertionError

/-- Specified net contribution of a species-reference list to one species
id: the sum of the stoichiometries of the references naming that species
(a missing stoichiometry counts 0; the builder errors out on those before
this quantity matters). -/
def srefSum (sid : String) : List SpeciesRef → Rat
  | [] => 0
  | s :: rest =>
      (if s.species = sid then s.stoichiometry.getD 0 else 0) + srefSum sid rest

/-- Defaultdict read of a stoichiometry dict: 0 when absent. -/
def lookupStoich (st : List (String × Rat)) (sid : String) : Rat :=
  (alookup st sid).getD 0

/-- Identifiers stored for one provider, in encounter order, over a list
of parsed (provider, identifier) pairs. -/
def pairsFor : List (String × String) → String → List String
  | [], _ => []
  | q :: ps, p => if q.1 = p then q.2 :: pairsFor ps p else pairsFor ps p

/-- Expected annotation value for a provider given its identifier list:
absent for none, the bare string for exactly one, the list for several. -/
def encodeIds : List String → Option AnnValue
  | [] => none
  | [x] => some (.str x)
  | x :: y :: rest => some (.list (x :: y :: rest))

/-- Last stored coefficient for a reaction id over a flux-objective list
(dict assignment overwrites, so the last one wins). -/
def lastCoeff : List FluxObjective → String → Option Rat
  | [], _ => none
  | fo :: rest, rid =>
      match lastCoeff rest rid with
      | some c => some c
      | none => if fo.reaction = rid then some fo.coefficient else none

/-- Flat processing of already-parsed (provider, identifier) pairs; the
CV-term loops of annotate_cobra_from_sbase visit conforming URIs in exactly
this order. -/
def processPairs (annot : List (String × AnnValue)) (ps : List (String × String)) :
    Except PyExc (List (String × AnnValue)) :=
  ps.foldlM (fun a q => addAnnot a q.1 q.2) annot

/-- Identifier strings an annotation value holds. -/
def annValues : AnnValue → List String
  | .int _ => []
  | .str s => [s]
  | .list xs => xs

/-- Identifier strings stored in the annotation dict for one provider. -/
def valuesAt (annot : List (String × AnnValue)) (p : String) : List String :=
  match alookup annot p with
  | none => []
  | some v => annValues v

/-- Shape invariant maintained by addAnnot: a stored list always holds at
least two identifiers (a single identifier stays a bare string). -/
def shapeOk (annot : List (String × AnnValue)) : Prop :=
  ∀ p xs, alookup annot p = some (.list xs) → 2 ≤ xs.length

deriving instance DecidableEq for Except

/-- Concrete document for exercising the gene-reaction-rule path: one
reaction whose gene product association is a plain reference to G1. -/
def c3Objectives : ListOfObjectives :=
  { activeObjective := "obj",
    objectives := [{ id := "obj", otype := "maximize" }] }

/-- Concrete document with a single reaction, metabolite and gene. -/
def gprModel : SModel :=
  { id := "m",
    species := [{ id := some "M1", compartment := "c" }],
    reactions := [{ id := some "R1",
                    reactants := [{ species := "M1", stoichiometry := some 1 }],
                    fbc := some { lowerFluxBound := some "lb",
                                  upperFluxBound := some "ub",
                                  geneProductAssociation :=
                                    some (.geneProductRef "G1") } }],
    parameters := [{ id := "lb", constant := true, value := some (-10) },
                   { id := "ub", constant := true, value := some 10 }],
    fbc := some { geneProducts := [{ id := "G1" }],
                  listOfObjectives := some c3Objectives } }

/-- Concrete constant lower-bound parameter. -/
def c4ParamLb : SParameter := { id := "plb", constant := true, value := some (-20) }

/-- Concrete constant upper-bound parameter. -/
def c4ParamUb : SParameter := { id := "pub", constant := true, value := some 20 }

/-- Concrete parameter list. -/
def c4Params : List SParameter := [c4ParamLb, c4ParamUb]

/-- Concrete reaction fbc plugin referencing both parameters. -/
def c4Rfbc : SReactionFbc :=
  { lowerFluxBound := some "plb", upperFluxBound := some "pub" }

/-- Concrete reaction with bounds. -/
def c4Reaction : SReaction := { id := some "R1", fbc := some c4Rfbc }

/-- Concrete reaction in which species A occurs as reactant and product. -/
def c5Reaction : SReaction :=
  { id := some "R1",
    reactants := [{ species := "A", stoichiometry := some 1 },
                  { species := "B", stoichiometry := some 2 }],
    products := [{ species := "A", stoichiometry := some 3 }] }

/-- Concrete maximize objective over reaction R1. -/
def c6Objective : SObjective :=
  { id := "obj", otype := "maximize",
    fluxObjectives := [{ reaction := "R1", coefficient := 1 }] }

/-- Concrete listOfObjectives whose active objective is obj. -/
def c6LO : ListOfObjectives :=
  { activeObjective := "obj", objectives := [c6Objective] }

/-- Concrete cobra reaction for the bound-deduplication witness. -/
def c8Reaction : CReaction := { id := "R1", lower_bound := -5, upper_bound := 10 }

/-- Concrete CV terms: two conforming chebi URIs around a non-conforming
one. -/
def c9Terms : List (List String) :=
  [["http://identifiers.org/chebi/CHEBI:17234",
    "baduri",
    "http://identifiers.org/chebi/CHEBI:4167"]]

/-- Concrete SBase with SBO term and the chebi CV terms. -/
def c9SBase : SBaseData := { sboTerm := some 5, cvterms := some c9Terms }

/-- Concrete SBase whose CV term provider collides with the stored SBO
int. -/
def c9CollisionSBase : SBaseData :=
  { sboTerm := some 626,
    cvterms := some [["http://identifiers.org/SBO/SBO:0000626"]] }

theorem alookup_aset {α : Type} (d : List (String × α)) (k : String) (v : α)
    (q : String) :
    alookup (aset d k v) q = if q = k then some v else alookup d q := by
  induction d with
  | nil =>
      by_cases h : q = k
      · simp [alookup, aset, h]
      · have h' : ¬k = q := fun he => h he.symm
        simp [alookup, aset, h, h']
  | cons kv rest ih =>
      by_cases h1 : kv.1 = k
      · by_cases h2 : q = k
        · simp [alookup, aset, h1, h2]
        · have h' : ¬k = q := fun he => h2 he.symm
          simp [alookup, aset, h1, h2, h']
      · by_cases h2 : q = k
        · have h' : ¬kv.1 = q := fun he => h1 (he.trans h2)
          simp only [h2] at ih ⊢
          simp [alookup, aset, h1, h', ih]
        · simp [alookup, aset, h1, h2, ih]

theorem lookupStoich_upd (st : List (String × Rat)) (k : String) (f : Rat → Rat)
    (q : String) :
    lookupStoich (updStoich st k f) q
      = if q = k then f (lookupStoich st k) else lookupStoich st q := by
  unfold lookupStoich updStoich
  rw [alookup_aset]
  by_cases h : q = k <;> simp [h]

theorem mem_keys_aset {α : Type} (d : List (String × α)) (k : String) (v : α)
    (a : String) (h : a ∈ (aset d k v).map Prod.fst) :
    a ∈ d.map Prod.fst ∨ a = k := by
  induction d with
  | nil =>
      simp [aset] at h
      exact Or.inr h
  | cons kv rest ih =>
      by_cases h1 : kv.1 = k
      · simp only [aset, if_pos h1, List.map_cons, List.mem_cons] at h
        rcases h with h | h
        · exact Or.inl (by simp only [List.map_cons, List.mem_cons]; exact Or.inl h)
        · exact Or.inl (by simp only [List.map_cons, List.mem_cons]; exact Or.inr h)
      · simp only [aset, if_neg h1, List.map_cons, List.mem_cons] at h
        rcases h with h | h
        · exact Or.inl (by simp only [List.map_cons, List.mem_cons]; exact Or.inl h)
        · rcases ih h with h' | h'
          · exact Or.inl (by simp only [List.map_cons, List.mem_cons]; exact Or.inr h')
          · exact Or.inr h'

theorem nodup_keys_aset {α : Type} (d : List (String × α)) (k : String) (v : α)
    (h : (d.map Prod.fst).Nodup) : ((aset d k v).map Prod.fst).Nodup := by
  induction d with
  | nil => simp [aset]
  | cons kv rest ih =>
      rw [List.map_cons, List.nodup_cons] at h
      by_cases h1 : kv.1 = k
      · simp only [aset, if_pos h1, List.map_cons, List.nodup_cons]
        exact ⟨h1 ▸ h.1, h.2⟩
      · simp only [aset, if_neg h1, List.map_cons, List.nodup_cons]
        refine ⟨fun hm => ?_, ih h.2⟩
        rcases mem_keys_aset rest k v kv.1 hm with h' | h'
        · exact h.1 h'
        · exact h1 h'

theorem alookup_of_mem_nodup {α : Type} (d : List (String × α)) (kv : String × α)
    (hmem : kv ∈ d) (hnd : (d.map Prod.fst).Nodup) : alookup d kv.1 = some kv.2 := by
  induction d with
  | nil => simp at hmem
  | cons hd rest ih =>
      rw [List.map_cons, List.nodup_cons] at hnd
      rcases List.mem_cons.mp hmem with h | h
      · simp [alookup, h]
      · have hne : ¬hd.1 = kv.1 := by
          intro he
          exact hnd.1 (he ▸ List.mem_map_of_mem Prod.fst h)
        simp [alookup, hne, ih h hnd.2]

theorem exc_bind_ok {ε α β : Type} (a : α) (f : α → Except ε β) :
    (Except.ok a >>= f) = f a := rfl

theorem exc_bind_err {ε α β : Type} (e : ε) (f : α → Except ε β) :
    ((Except.error e : Except ε α) >>= f) = Except.error e := rfl

theorem accumReactants_spec (srefs : List SpeciesRef) (st : List (String × Rat))
    (h : ∀ s ∈ srefs, s.stoichiometry.isSome) :
    ∃ st', accumReactants srefs st = .ok st' ∧
      (∀ q, lookupStoich st' q = lookupStoich st q - srefSum q srefs) ∧
      ((st.map Prod.fst).Nodup → (st'.map Prod.fst).Nodup) := by
  induction srefs generalizing st with
  | nil =>
      exact ⟨st, rfl, fun q => by simp [srefSum], fun hn => hn⟩
  | cons s rest ih =>
      obtain ⟨v, hv⟩ := Option.isSome_iff_exists.mp (h s (List.mem_cons_self _ _))
      have hrest : ∀ x ∈ rest, x.stoichiometry.isSome :=
        fun x hx => h x (List.mem_cons_of_mem _ hx)
      obtain ⟨st', hok, hlook, hnd⟩ :=
        ih (updStoich st s.species (fun x => x - v)) hrest
      refine ⟨st', ?_, ?_, ?_⟩
      · simp [accumReactants, checkRequired, hv, bind, Except.bind, hok]
      · intro q
        rw [hlook q, lookupStoich_upd]
        by_cases hq : q = s.species
        · rw [if_pos hq]
          simp [srefSum, hq, hv]
          ring
        · rw [if_neg hq]
          have hq' : ¬s.species = q := fun he => hq he.symm
          simp [srefSum, hq']
      · intro hn
        exact hnd (nodup_keys_aset st s.species _ hn)

theorem accumProducts_spec (srefs : List SpeciesRef) (st : List (String × Rat))
    (h : ∀ s ∈ srefs, s.stoichiometry.isSome) :
    ∃ st', accumProducts srefs st = .ok st' ∧
      (∀ q, lookupStoich st' q = lookupStoich st q + srefSum q srefs) ∧
      ((st.map Prod.fst).Nodup → (st'.map Prod.fst).Nodup) := by
  induction srefs generalizing st with
  | nil =>
      exact ⟨st, rfl, fun q => by simp [srefSum], fun hn => hn⟩
  | cons s rest ih =>
      obtain ⟨v, hv⟩ := Option.isSome_iff_exists.mp (h s (List.mem_cons_self _ _))
      have hrest : ∀ x ∈ rest, x.stoichiometry.isSome :=
        fun x hx => h x (List.mem_cons_of_mem _ hx)
      obtain ⟨st', hok, hlook, hnd⟩ :=
        ih (updStoich st s.species (fun x => x + v)) hrest
      refine ⟨st', ?_, ?_, ?_⟩
      · simp [accumProducts, checkRequired, hv, bind, Except.bind, hok]
      · intro q
        rw [hlook q, lookupStoich_upd]
        by_cases hq : q = s.species
        · rw [if_pos hq]
          simp [srefSum, hq, hv]
          ring
        · rw [if_neg hq]
          have hq' : ¬s.species = q := fun he => hq he.symm
          simp [srefSum, hq']
      · intro hn
        exact hnd (nodup_keys_aset st s.species _ hn)

theorem contains_eq_true_of_mem {l : List String} {a : String} (h : a ∈ l) :
    l.contains a = true :=
  List.contains_iff_exists_mem_beq.mpr ⟨a, h, by simp⟩

theorem mem_of_contains_eq_true {l : List String} {a : String} (h : l.contains a = true) :
    a ∈ l := by
  obtain ⟨a2, ha2, hbeq⟩ := List.contains_iff_exists_mem_beq.mp h
  have he : a = a2 := by simpa using hbeq
  exact he ▸ ha2

theorem coeff_fold_err (rids : List String) (fos : List FluxObjective)
    (acc : List (String × Rat))
    (h : ∃ fo ∈ fos, fo.reaction ∉ rids) :
    ∃ msg, fos.foldlM (coeffStep rids) acc = .error (.cobraSBMLError msg) := by
  induction fos generalizing acc with
  | nil => simp at h
  | cons fo rest ih =>
      by_cases hm : fo.reaction ∈ rids
      · have hstep : coeffStep rids acc fo = .ok (aset acc fo.reaction fo.coefficient) := by
          unfold coeffStep
          rw [if_pos (contains_eq_true_of_mem hm)]
        have hrest : ∃ x ∈ rest, x.reaction ∉ rids := by
          rcases h with ⟨x, hx, hxr⟩
          rcases List.mem_cons.mp hx with he | he
          · exact absurd hm (he ▸ hxr)
          · exact ⟨x, he, hxr⟩
        obtain ⟨msg, hmsg⟩ := ih (aset acc fo.reaction fo.coefficient) hrest
        refine ⟨msg, ?_⟩
        rw [List.foldlM_cons, hstep, exc_bind_ok, hmsg]
      · have hstep : coeffStep rids acc fo
            = .error (.cobraSBMLError ("Objective reaction " ++ fo.reaction ++ " not found")) := by
          unfold coeffStep
          rw [if_neg (fun hc => hm (mem_of_contains_eq_true hc))]
        refine ⟨"Objective reaction " ++ fo.reaction ++ " not found", ?_⟩
        rw [List.foldlM_cons, hstep, exc_bind_err]

theorem coeff_fold_ok (rids : List String) (fos : List FluxObjective)
    (acc : List (String × Rat))
    (h : ∀ fo ∈ fos, fo.reaction ∈ rids) :
    ∃ acc', fos.foldlM (coeffStep rids) acc = .ok acc' ∧
      ∀ rid, alookup acc' rid =
        match lastCoeff fos rid with
        | some c => some c
        | none => alookup acc rid := by
  induction fos generalizing acc with
  | nil => exact ⟨acc, rfl, fun rid => by simp [lastCoeff]⟩
  | cons fo rest ih =>
      have hm : fo.reaction ∈ rids := h fo (List.mem_cons_self _ _)
      have hstep : coeffStep rids acc fo = .ok (aset acc fo.reaction fo.coefficient) := by
        unfold coeffStep
        rw [if_pos (contains_eq_true_of_mem hm)]
      obtain ⟨acc', hok, hlook⟩ := ih (aset acc fo.reaction fo.coefficient)
        (fun x hx => h x (List.mem_cons_of_mem _ hx))
      refine ⟨acc', ?_, ?_⟩
      · rw [List.foldlM_cons, hstep, exc_bind_ok, hok]
      · intro rid
        rw [hlook rid]
        cases hlast : lastCoeff rest rid with
        | some c => simp [lastCoeff, hlast]
        | none =>
            rw [alookup_aset]
            by_cases hr : rid = fo.reaction
            · subst hr
              simp [lastCoeff, hlast]
            · have hr' : ¬fo.reaction = rid := fun he => hr he.symm
              simp [lastCoeff, hlast, hr, hr']

/-- Claim C6: objective resolution of the reader: with the active objective
found and of type maximize or minimize, a flux objective naming an unknown
reaction raises CobraSBMLError, and otherwise the objective coefficients
are collected per reaction id (last assignment wins) with direction max
for maximize and min for minimize. -/
theorem objective_resolution (lo : ListOfObjectives) (rids : List String)
    (obj : SObjective)
    (hobj : lo.objectives.find? (fun o => o.id == lo.activeObjective) = some obj)
    (htype : obj.otype = "maximize" ∨ obj.otype = "minimize") :
    ((∃ fo ∈ obj.fluxObjectives, fo.reaction ∉ rids) →
        ∃ msg, applyObjective lo rids = .error (.cobraSBMLError msg)) ∧
    ((∀ fo ∈ obj.fluxObjectives, fo.reaction ∈ rids) →
        ∃ coeffs, applyObjective lo rids
            = .ok (coeffs, if obj.otype = "maximize" then "max" else "min") ∧
          ∀ rid, alookup coeffs rid = lastCoeff obj.fluxObjectives rid) := by
  have hdir : alookup LONG_SHORT_DIRECTION obj.otype
      = some (if obj.otype = "maximize" then "max" else "min") := by
    rcases htype with h | h <;> simp [LONG_SHORT_DIRECTION, alookup, h]
  constructor
  · intro hex
    obtain ⟨msg, hmsg⟩ := coeff_fold_err rids obj.fluxObjectives [] hex
    refine ⟨msg, ?_⟩
    simp only [applyObjective, hobj, hdir, hmsg]
  · intro hall
    obtain ⟨acc', hok, hlook⟩ := coeff_fold_ok rids obj.fluxObjectives [] hall
    refine ⟨acc', ?_, ?_⟩
    · simp only [applyObjective, hobj, hdir, hok]
    · intro rid
      rw [hlook rid]
      cases hlast : lastCoeff obj.fluxObjectives rid <;> simp [alookup]

/-- Claim C5: invariant of the stoichiometry read by `_sbml_to_model`: the kept
dict maps only species that are in the model and not boundary species
(boundary and unknown species are skipped, not added), and each kept entry
carries the net coefficient, product stoichiometry minus reactant
stoichiometry. -/
theorem stoichiometry_invariant (r : SReaction) (boundaryIds metIds : List String)
    (h : ∀ s ∈ r.reactants ++ r.products, s.stoichiometry.isSome) :
    ∃ st, buildStoichiometry r = .ok st ∧
      (∀ kv, kv ∈ objectStoichiometry boundaryIds metIds st ↔
          kv ∈ st ∧ kv.1 ∉ boundaryIds ∧ kv.1 ∈ metIds) ∧
      (∀ kv ∈ st, kv.2 = srefSum kv.1 r.products - srefSum kv.1 r.reactants) := by
  have hre : ∀ s ∈ r.reactants, s.stoichiometry.isSome :=
    fun s hs => h s (List.mem_append_left _ hs)
  have hpr : ∀ s ∈ r.products, s.stoichiometry.isSome :=
    fun s hs => h s (List.mem_append_right _ hs)
  obtain ⟨st1, hok1, hlook1, hnd1⟩ := accumReactants_spec r.reactants [] hre
  obtain ⟨st2, hok2, hlook2, hnd2⟩ := accumProducts_spec r.products st1 hpr
  have hnd : (st2.map Prod.fst).Nodup := hnd2 (hnd1 (by simp))
  refine ⟨st2, ?_, ?_, ?_⟩
  · simp [buildStoichiometry, bind, Except.bind, hok1, hok2]
  · intro kv
    simp [objectStoichiometry, List.mem_filter]
  · intro kv hkv
    have hmem := alookup_of_mem_nodup st2 kv hkv hnd
    have hl : lookupStoich st2 kv.1 = kv.2 := by simp [lookupStoich, hmem]
    have h2 := hlook2 kv.1
    rw [hlook1 kv.1] at h2
    have h0 : lookupStoich [] kv.1 = 0 := by simp [lookupStoich, alookup]
    rw [h0] at h2
    rw [hl] at h2
    rw [h2]
    ring

/-- Claim C4: flux-bound resolution of `_sbml_to_model`: a reaction without an
fbc plugin raises CobraSBMLError; when the referenced bound parameters
exist, a constant parameter with a value sets the corresponding bound to
that value and anything else raises CobraSBMLError (the lower bound is
checked first). -/
theorem flux_bounds_resolution (params : List SParameter) (r : SReaction) :
    (r.fbc = none → ∃ msg, setBounds params r = .error (.cobraSBMLError msg)) ∧
    (∀ rfbc lbId ubId pLb pUb,
      r.fbc = some rfbc →
      rfbc.lowerFluxBound = some lbId →
      rfbc.upperFluxBound = some ubId →
      getParameter params lbId = some pLb →
      getParameter params ubId = some pUb →
      ((∀ vl vu, pLb.constant = true → pLb.value = some vl →
          pUb.constant = true → pUb.value = some vu →
          setBounds params r = .ok (vl, vu)) ∧
       ((pLb.constant = false ∨ pLb.value = none) →
          ∃ msg, setBounds params r = .error (.cobraSBMLError msg)) ∧
       (∀ vl, pLb.constant = true → pLb.value = some vl →
          (pUb.constant = false ∨ pUb.value = none) →
          ∃ msg, setBounds params r = .error (.cobraSBMLError msg)))) := by
  constructor
  · intro hf
    exact ⟨_, by simp [setBounds, hf]; rfl⟩
  · intro rfbc lbId ubId pLb pUb hf hlb hub hpl hpu
    refine ⟨?_, ?_, ?_⟩
    · intro vl vu hcl hvl hcu hvu
      simp [setBounds, hf, hlb, hub, checkRequired, bind, Except.bind, paramValue,
            hpl, hpu, hcl, hvl, hcu, hvu, pure, Except.pure]
    · rintro (hc | hv)
      · exact ⟨_, by simp [setBounds, hf, hlb, hub, checkRequired, bind, Except.bind,
          paramValue, hpl, hc]; rfl⟩
      · cases hcl : pLb.constant
        · exact ⟨_, by simp [setBounds, hf, hlb, hub, checkRequired, bind, Except.bind,
            paramValue, hpl, hcl]; rfl⟩
        · exact ⟨_, by simp [setBounds, hf, hlb, hub, checkRequired, bind, Except.bind,
            paramValue, hpl, hcl, hv]; rfl⟩
    · rintro vl hcl hvl (hc | hv)
      · exact ⟨_, by simp [setBounds, hf, hlb, hub, checkRequired, bind, Except.bind,
          paramValue, hpl, hcl, hvl, hpu, hc]; rfl⟩
      · cases hcu : pUb.constant
        · exact ⟨_, by simp [setBounds, hf, hlb, hub, checkRequired, bind, Except.bind,
            paramValue, hpl, hcl, hvl, hpu, hcu]; rfl⟩
        · exact ⟨_, by simp [setBounds, hf, hlb, hub, checkRequired, bind, Except.bind,
            paramValue, hpl, hcl, hvl, hpu, hcu, hv]; rfl⟩

theorem foldl_min_le_init (rs : List CReaction) (a : Rat) :
    rs.foldl (fun x q => min x q.lower_bound) a ≤ a := by
  induction rs generalizing a with
  | nil => simp
  | cons s rest ih =>
      exact le_trans (ih (min a s.lower_bound)) (min_le_left _ _)

theorem foldl_min_le_mem (rs : List CReaction) (r : CReaction) (h : r ∈ rs) :
    ∀ a, rs.foldl (fun x q => min x q.lower_bound) a ≤ r.lower_bound := by
  induction rs with
  | nil => cases h
  | cons s rest ih =>
      intro a
      rcases List.mem_cons.mp h with he | he
      · subst he
        exact le_trans (foldl_min_le_init rest _) (min_le_right _ _)
      · exact ih he _

theorem foldl_min_attained (rs : List CReaction) :
    ∀ a, rs.foldl (fun x q => min x q.lower_bound) a = a ∨
      ∃ r ∈ rs, rs.foldl (fun x q => min x q.lower_bound) a = r.lower_bound := by
  induction rs with
  | nil => intro a; exact Or.inl rfl
  | cons s rest ih =>
      intro a
      rcases ih (min a s.lower_bound) with h | ⟨r, hr, he⟩
      · rcases min_choice a s.lower_bound with hm | hm
        · exact Or.inl (by rw [List.foldl_cons, h, hm])
        · exact Or.inr ⟨s, List.mem_cons_self _ _, by rw [List.foldl_cons, h, hm]⟩
      · exact Or.inr ⟨r, List.mem_cons_of_mem _ hr, by rw [List.foldl_cons, he]⟩

theorem foldl_max_ge_init (rs : List CReaction) (a : Rat) :
    a ≤ rs.foldl (fun x q => max x q.upper_bound) a := by
  induction rs generalizing a with
  | nil => simp
  | cons s rest ih =>
      exact le_trans (le_max_left _ _) (ih (max a s.upper_bound))

theorem foldl_max_ge_mem (rs : List CReaction) (r : CReaction) (h : r ∈ rs) :
    ∀ a, r.upper_bound ≤ rs.foldl (fun x q => max x q.upper_bound) a := by
  induction rs with
  | nil => cases h
  | cons s rest ih =>
      intro a
      rcases List.mem_cons.mp h with he | he
      · subst he
        exact le_trans (le_max_right _ _) (foldl_max_ge_init rest _)
      · exact ih he _

theorem foldl_max_attained (rs : List CReaction) :
    ∀ a, rs.foldl (fun x q => max x q.upper_bound) a = a ∨
      ∃ r ∈ rs, rs.foldl (fun x q => max x q.upper_bound) a = r.upper_bound := by
  induction rs with
  | nil => intro a; exact Or.inl rfl
  | cons s rest ih =>
      intro a
      rcases ih (max a s.upper_bound) with h | ⟨r, hr, he⟩
      · rcases max_choice a s.upper_bound with hm | hm
        · exact Or.inl (by rw [List.foldl_cons, h, hm])
        · exact Or.inr ⟨s, List.mem_cons_self _ _, by rw [List.foldl_cons, h, hm]⟩
      · exact Or.inr ⟨r, List.mem_cons_of_mem _ hr, by rw [List.foldl_cons, he]⟩

/-- Claim C8: numeric bound deduplication of the writer: the shared bounds are
the reaction minimum lower bound and maximum upper bound (or -1000/1000
for an empty model), and `create_bound` resolves a bound value to
cobra_default_lb, cobra_0_bound, cobra_default_ub, in that order, or
creates a dedicated constant parameter named from the reaction id and
bound type. -/
theorem bound_deduplication (reactions : List CReaction) (reaction : CReaction)
    (bt : String) (v minV maxV : Rat)
    (hv : getattrBound reaction bt = some v)
    (hd : defaultBounds reactions = (minV, maxV)) :
    (reactions = [] → minV = -1000 ∧ maxV = 1000) ∧
    (∀ r ∈ reactions, minV ≤ r.lower_bound ∧ r.upper_bound ≤ maxV) ∧
    (reactions ≠ [] →
      (∃ r ∈ reactions, r.lower_bound = minV) ∧
      (∃ r ∈ reactions, r.upper_bound = maxV)) ∧
    (v = minV → create_bound minV maxV reaction bt = .ok ("cobra_default_lb", none)) ∧
    (v ≠ minV → v = 0 →
      create_bound minV maxV reaction bt = .ok ("cobra_0_bound", none)) ∧
    (v ≠ minV → v ≠ 0 → v = maxV →
      create_bound minV maxV reaction bt = .ok ("cobra_default_ub", none)) ∧
    (v ≠ minV → v ≠ 0 → v ≠ maxV →
      create_bound minV maxV reaction bt =
        .ok ("R_" ++ reaction.id ++ "_" ++ bt,
             some { id := "R_" ++ reaction.id ++ "_" ++ bt, value := v,
                    sboTerm := "SBO:0000625", constant := true })) := by
  refine ⟨?_, ?_, ?_, ?_, ?_, ?_, ?_⟩
  · intro he
    subst he
    simp [defaultBounds] at hd
    exact ⟨hd.1.symm, hd.2.symm⟩
  · intro r hr
    cases reactions with
    | nil => cases hr
    | cons s rest =>
        simp only [defaultBounds, Prod.mk.injEq] at hd
        constructor
        · rw [← hd.1]
          rcases List.mem_cons.mp hr with he | he
          · subst he
            exact le_trans (foldl_min_le_init rest _) (le_refl _)
          · exact foldl_min_le_mem rest r he _
        · rw [← hd.2]
          rcases List.mem_cons.mp hr with he | he
          · subst he
            exact le_trans (le_refl _) (foldl_max_ge_init rest _)
          · exact foldl_max_ge_mem rest r he _
  · intro hne
    cases reactions with
    | nil => exact absurd rfl hne
    | cons s rest =>
        simp only [defaultBounds, Prod.mk.injEq] at hd
        constructor
        · rcases foldl_min_attained rest s.lower_bound with h | ⟨r, hr, he⟩
          · exact ⟨s, List.mem_cons_self _ _, by rw [← hd.1, h]⟩
          · exact ⟨r, List.mem_cons_of_mem _ hr, by rw [← hd.1, he]⟩
        · rcases foldl_max_attained rest s.upper_bound with h | ⟨r, hr, he⟩
          · exact ⟨s, List.mem_cons_self _ _, by rw [← hd.2, h]⟩
          · exact ⟨r, List.mem_cons_of_mem _ hr, by rw [← hd.2, he]⟩
  · intro h1
    simp only [create_bound, hv]
    rw [if_pos h1]
  · intro h1 h2
    simp only [create_bound, hv]
    rw [if_neg h1, if_pos h2]
  · intro h1 h2 h3
    simp only [create_bound, hv]
    rw [if_neg h1, if_neg h2, if_pos h3]
  · intro h1 h2 h3
    simp only [create_bound, hv]
    rw [if_neg h1, if_neg h2, if_neg h3]

theorem processUri_fold_flat (uris : List String) (annot : List (String × AnnValue)) :
    uris.foldlM processUri annot
      = processPairs annot (uris.filterMap parseIdentifiersUri) := by
  induction uris generalizing annot with
  | nil => rfl
  | cons u rest ih =>
      have hL : List.foldlM processUri annot (u :: rest)
          = processUri annot u >>= fun a => List.foldlM processUri a rest := rfl
      rw [hL]
      cases hp : parseIdentifiersUri u with
      | none =>
          have hu : processUri annot u = .ok annot := by
            unfold processUri
            rw [hp]
          rw [hu, exc_bind_ok, ih, List.filterMap_cons, hp]
      | some pi =>
          have hu : processUri annot u = addAnnot annot pi.1 pi.2 := by
            unfold processUri
            rw [hp]
          rw [hu, List.filterMap_cons, hp]
          show addAnnot annot pi.1 pi.2 >>= (fun a => List.foldlM processUri a rest)
              = addAnnot annot pi.1 pi.2 >>= fun a =>
                  processPairs a (rest.filterMap parseIdentifiersUri)
          cases addAnnot annot pi.1 pi.2 with
          | error e => rfl
          | ok a1 =>
              rw [exc_bind_ok, exc_bind_ok]
              exact ih a1

theorem processPairs_append (annot : List (String × AnnValue))
    (ps1 ps2 : List (String × String)) :
    processPairs annot (ps1 ++ ps2)
      = processPairs annot ps1 >>= fun a => processPairs a ps2 := by
  induction ps1 generalizing annot with
  | nil => rfl
  | cons q qs ih =>
      have hL : processPairs annot ((q :: qs) ++ ps2)
          = addAnnot annot q.1 q.2 >>= fun a => processPairs a (qs ++ ps2) := rfl
      have hR : processPairs annot (q :: qs)
          = addAnnot annot q.1 q.2 >>= fun a => processPairs a qs := rfl
      rw [hL, hR]
      cases addAnnot annot q.1 q.2 with
      | error e => rfl
      | ok a1 =>
          rw [exc_bind_ok, exc_bind_ok]
          exact ih a1

theorem processCVTerms_flat (terms : List (List String))
    (annot : List (String × AnnValue)) :
    terms.foldlM (fun a term => term.foldlM processUri a) annot
      = processPairs annot (terms.flatten.filterMap parseIdentifiersUri) := by
  induction terms generalizing annot with
  | nil => rfl
  | cons t ts ih =>
      have hL : (t :: ts).foldlM (fun a term => term.foldlM processUri a) annot
          = t.foldlM processUri annot >>= fun a =>
              ts.foldlM (fun a term => term.foldlM processUri a) a := rfl
      rw [hL, processUri_fold_flat t annot, List.flatten_cons, List.filterMap_append,
          processPairs_append]
      cases processPairs annot (t.filterMap parseIdentifiersUri) with
      | error e => rfl
      | ok a1 =>
          rw [exc_bind_ok, exc_bind_ok]
          exact ih a1

theorem addAnnot_spec (annot : List (String × AnnValue)) (p i : String)
    (hni : ∀ n, alookup annot p ≠ some (.int n)) :
    ∃ annot1, addAnnot annot p i = .ok annot1 ∧
      (∀ q, valuesAt annot1 q = valuesAt annot q ++ (if q = p then [i] else [])) ∧
      (∀ q n, alookup annot1 q = some (.int n) ↔ alookup annot q = some (.int n)) ∧
      (shapeOk annot → shapeOk annot1) := by
  cases hl : alookup annot p with
  | none =>
      refine ⟨aset annot p (.str i), by simp [addAnnot, hl], ?_, ?_, ?_⟩
      · intro q
        unfold valuesAt
        rw [alookup_aset]
        by_cases hq : q = p
        · subst hq
          rw [if_pos rfl, if_pos rfl, hl]
          simp [annValues]
        · rw [if_neg hq, if_neg hq]
          simp
      · intro q n
        rw [alookup_aset]
        by_cases hq : q = p
        · subst hq
          rw [if_pos rfl, hl]
          simp
        · rw [if_neg hq]
      · intro hsh q xs hxs
        rw [alookup_aset] at hxs
        by_cases hq : q = p
        · rw [if_pos hq] at hxs
          cases hxs
        · rw [if_neg hq] at hxs
          exact hsh q xs hxs
  | some v =>
      cases v with
      | int n => exact absurd hl (hni n)
      | str s =>
          refine ⟨aset annot p (.list [s, i]), by simp [addAnnot, hl], ?_, ?_, ?_⟩
          · intro q
            unfold valuesAt
            rw [alookup_aset]
            by_cases hq : q = p
            · subst hq
              rw [if_pos rfl, if_pos rfl, hl]
              simp [annValues]
            · rw [if_neg hq, if_neg hq]
              simp
          · intro q n
            rw [alookup_aset]
            by_cases hq : q = p
            · subst hq
              rw [if_pos rfl, hl]
              simp
            · rw [if_neg hq]
          · intro hsh q xs hxs
            rw [alookup_aset] at hxs
            by_cases hq : q = p
            · rw [if_pos hq] at hxs
              cases hxs
              simp
            · rw [if_neg hq] at hxs
              exact hsh q xs hxs
      | list xs =>
          refine ⟨aset annot p (.list (xs ++ [i])), by simp [addAnnot, hl], ?_, ?_, ?_⟩
          · intro q
            unfold valuesAt
            rw [alookup_aset]
            by_cases hq : q = p
            · subst hq
              rw [if_pos rfl, if_pos rfl, hl]
              simp [annValues]
            · rw [if_neg hq, if_neg hq]
              simp
          · intro q n
            rw [alookup_aset]
            by_cases hq : q = p
            · subst hq
              rw [if_pos rfl, hl]
              simp
            · rw [if_neg hq]
          · intro hsh q ys hys
            rw [alookup_aset] at hys
            by_cases hq : q = p
            · rw [if_pos hq] at hys
              cases hys
              have := hsh p xs hl
              simp
              omega
            · rw [if_neg hq] at hys
              exact hsh q ys hys

theorem pairsFor_cons (q0 : String × String) (ps : List (String × String)) (p : String) :
    pairsFor (q0 :: ps) p = if q0.1 = p then q0.2 :: pairsFor ps p else pairsFor ps p := rfl

theorem processPairs_spec (ps : List (String × String))
    (annot : List (String × AnnValue))
    (hint : ∀ q ∈ ps, ∀ n, alookup annot q.1 ≠ some (.int n)) :
    ∃ annot2, processPairs annot ps = .ok annot2 ∧
      (∀ q, valuesAt annot2 q = valuesAt annot q ++ pairsFor ps q) ∧
      (∀ q n, alookup annot2 q = some (.int n) ↔ alookup annot q = some (.int n)) ∧
      (shapeOk annot → shapeOk annot2) := by
  induction ps generalizing annot with
  | nil =>
      exact ⟨annot, rfl, fun q => by simp [pairsFor], fun q n => Iff.rfl, id⟩
  | cons q0 rest ih =>
      obtain ⟨annot1, ha, hval1, hint1, hsh1⟩ :=
        addAnnot_spec annot q0.1 q0.2 (hint q0 (List.mem_cons_self _ _))
      have hintrest : ∀ q ∈ rest, ∀ n, alookup annot1 q.1 ≠ some (.int n) := by
        intro q hq n hcontra
        exact hint q (List.mem_cons_of_mem _ hq) n ((hint1 q.1 n).mp hcontra)
      obtain ⟨annot2, hb, hval2, hint2, hsh2⟩ := ih annot1 hintrest
      refine ⟨annot2, ?_, ?_, ?_, ?_⟩
      · have hL : processPairs annot (q0 :: rest)
            = addAnnot annot q0.1 q0.2 >>= fun a => processPairs a rest := rfl
        rw [hL, ha, exc_bind_ok]
        exact hb
      · intro q
        rw [hval2 q, hval1 q]
        by_cases hq : q0.1 = q
        · have hq' : q = q0.1 := hq.symm
          rw [if_pos hq', pairsFor_cons, if_pos hq]
          simp
        · have hq' : ¬q = q0.1 := fun he => hq he.symm
          rw [if_neg hq', pairsFor_cons, if_neg hq]
          simp
      · intro q n
        exact (hint2 q n).trans (hint1 q n)
      · intro hsh
        exact hsh2 (hsh1 hsh)

theorem alookup_eq_encodeIds (annot : List (String × AnnValue)) (p : String)
    (hsh : shapeOk annot) (hni : ∀ n, alookup annot p ≠ some (.int n)) :
    alookup annot p = encodeIds (valuesAt annot p) := by
  cases hl : alookup annot p with
  | none => simp [valuesAt, hl, encodeIds]
  | some v =>
      cases v with
      | int n => exact absurd hl (hni n)
      | str s => simp [valuesAt, hl, annValues, encodeIds]
      | list xs =>
          have hlen := hsh p xs hl
          cases xs with
          | nil => simp at hlen
          | cons x ys =>
              cases ys with
              | nil => simp at hlen
              | cons y zs => simp [valuesAt, hl, annValues, encodeIds]

/-- Claim C9, amended: annotate_cobra_from_sbase stores the (int) SBO term under
"SBO" when set; provided no conforming CV-term URI has provider "SBO" while
an SBO term is set, each provider holds exactly the identifiers of its
conforming URIs in encounter order, a single identifier as a bare string
and several as a list, with non-conforming URIs skipped. -/
theorem annot_extraction_amended (sb : SBaseData) (terms : List (List String))
    (hcv : sb.cvterms = some terms)
    (h : ∀ pi ∈ terms.flatten.filterMap parseIdentifiersUri,
        pi.1 = "SBO" → sb.sboTerm = none) :
    ∃ annot, annotate_cobra_from_sbase [] sb = .ok annot ∧
      (∀ n, sb.sboTerm = some n → alookup annot "SBO" = some (.int n)) ∧
      (∀ p, sb.sboTerm = none ∨ p ≠ "SBO" →
          alookup annot p
            = encodeIds (pairsFor (terms.flatten.filterMap parseIdentifiersUri) p)) := by
  cases hsb : sb.sboTerm with
  | none =>
      have hint : ∀ q ∈ terms.flatten.filterMap parseIdentifiersUri,
          ∀ n, alookup ([] : List (String × AnnValue)) q.1 ≠ some (.int n) := by
        intro q hq n hcontra
        simp [alookup] at hcontra
      obtain ⟨annot2, hok, hval, hint2, hsh2⟩ :=
        processPairs_spec (terms.flatten.filterMap parseIdentifiersUri) [] hint
      have hrun : annotate_cobra_from_sbase [] sb
          = processPairs [] (terms.flatten.filterMap parseIdentifiersUri) := by
        unfold annotate_cobra_from_sbase
        rw [hsb, hcv]
        exact processCVTerms_flat terms []
      refine ⟨annot2, by rw [hrun, hok], ?_, ?_⟩
      · intro n hn
        simp at hn
      · intro p hp
        have hsh0 : shapeOk ([] : List (String × AnnValue)) := by
          intro q xs hxs
          simp [alookup] at hxs
        have hni : ∀ n, alookup annot2 p ≠ some (.int n) := by
          intro n hcontra
          have h0 := (hint2 p n).mp hcontra
          simp [alookup] at h0
        rw [alookup_eq_encodeIds annot2 p (hsh2 hsh0) hni, hval p]
        have hv0 : valuesAt ([] : List (String × AnnValue)) p = [] := by
          simp [valuesAt, alookup]
        rw [hv0]
        simp
  | some n0 =>
      have hint : ∀ q ∈ terms.flatten.filterMap parseIdentifiersUri,
          ∀ n, alookup [("SBO", AnnValue.int n0)] q.1 ≠ some (.int n) := by
        intro q hq n hcontra
        by_cases hq1 : q.1 = "SBO"
        · have hnone := h q hq hq1
          rw [hsb] at hnone
          cases hnone
        · have hq1' : ¬"SBO" = q.1 := fun he => hq1 he.symm
          simp only [alookup, if_neg hq1'] at hcontra
          cases hcontra
      obtain ⟨annot2, hok, hval, hint2, hsh2⟩ :=
        processPairs_spec (terms.flatten.filterMap parseIdentifiersUri)
          [("SBO", AnnValue.int n0)] hint
      have hrun : annotate_cobra_from_sbase [] sb
          = processPairs [("SBO", AnnValue.int n0)]
              (terms.flatten.filterMap parseIdentifiersUri) := by
        unfold annotate_cobra_from_sbase
        rw [hsb, hcv]
        exact processCVTerms_flat terms _
      refine ⟨annot2, by rw [hrun, hok], ?_, ?_⟩
      · intro n hn
        have hn0 : n0 = n := Option.some.inj hn
        subst hn0
        have h0 : alookup [("SBO", AnnValue.int n0)] "SBO"
            = some (AnnValue.int n0) := by
          simp [alookup]
        exact (hint2 "SBO" n0).mpr h0
      · intro p hp
        rcases hp with hp | hp
        · simp at hp
        · have hsh0 : shapeOk [("SBO", AnnValue.int n0)] := by
            intro q xs hxs
            by_cases hq : "SBO" = q
            · simp only [alookup, if_pos hq] at hxs
              cases hxs
            · simp only [alookup, if_neg hq] at hxs
              cases hxs
          have hp' : ¬"SBO" = p := fun he => hp he.symm
          have hni : ∀ n, alookup annot2 p ≠ some (.int n) := by
            intro n hcontra
            have h0 := (hint2 p n).mp hcontra
            simp only [alookup, if_neg hp'] at h0
            cases h0
          rw [alookup_eq_encodeIds annot2 p (hsh2 hsh0) hni, hval p]
          have hv0 : valuesAt [("SBO", AnnValue.int n0)] p = [] := by
            unfold valuesAt
            by_cases hq : "SBO" = p
            · simp only [alookup, if_pos hq]
              simp [annValues]
            · simp only [alookup, if_neg hq]
          rw [hv0]
          simp

/-- Claim C1: the claimed write-read round trip never yields a model: for
every cobra model the writer stops with NameError on the unbound name
model_id (and its content-emitting code sits after an unconditional
return), so no equivalence between the input model and a re-read model can
hold on any input. -/
theorem roundtrip_always_fails (m : CModel) :
    roundTrip m = .error (.nameError "model_id") := rfl

/-- Claim C2: write_sbml_model raises NameError for every model and
filename, because _model_to_sbml reads the undefined name model_id on its
unconditional path; consequently libsbml.writeSBMLToFile is never reached
and no SBML file is written. -/
theorem write_sbml_model_always_raises (m : CModel) (filename : String) :
    write_sbml_model m filename = .error (.nameError "model_id") := rfl

/-- Claim C3: counter-evidence to the gene-rule parsing claim: on a
document whose single reaction carries a plain gene product reference to
G1, the constructed reaction has gene_reaction_rule equal to the empty
string, not "G1"; indeed gprFromAssociation ignores its argument because
the parsing helpers are commented out. -/
theorem gene_rule_not_parsed :
    (_sbml_to_model gprModel).map (fun cm => cm.reactions.map (·.gene_reaction_rule))
        = .ok [""] ∧
    gprFromAssociation (some (.geneProductRef "G1")) = "" := by
  exact ⟨by decide, rfl⟩

/-- Claim C7: every outcome of read_sbml_model is either a model or a
CobraSBMLError; since the whole body is guarded by an except clause that
catches every exception the module raises, no other exception escapes. -/
theorem read_errors_wrapped (input : ReadInput) :
    (∃ cm, read_sbml_model input = .ok cm) ∨
    (∃ msg, read_sbml_model input = .error (.cobraSBMLError msg)) := by
  unfold read_sbml_model
  cases h : readInner input with
  | ok m => exact Or.inl ⟨m, rfl⟩
  | error e => exact Or.inr ⟨_, rfl⟩

/-- Claim C10: validate_sbml_model raises AssertionError for every path
argument and never returns a validation result. -/
theorem validate_always_asserts (path : String) :
    validate_sbml_model path = .error PyExc.assertionError := rfl

/-- Witness for claim C4 at a concrete reaction and parameter list. -/
theorem flux_bounds_resolution_witness :
    setBounds c4Params c4Reaction = .ok (-20, 20) :=
  ((flux_bounds_resolution c4Params c4Reaction).2 c4Rfbc "plb" "pub"
      c4ParamLb c4ParamUb rfl rfl rfl rfl rfl).1 (-20) 20 rfl rfl rfl rfl

/-- Witness for claim C5 at a concrete reaction in which species A occurs
on both sides and species B is a boundary species. -/
theorem stoichiometry_invariant_witness :
    (∀ s ∈ c5Reaction.reactants ++ c5Reaction.products, s.stoichiometry.isSome) ∧
    (∃ st, buildStoichiometry c5Reaction = .ok st ∧
      (∀ kv, kv ∈ objectStoichiometry ["B"] ["A", "B"] st ↔
          kv ∈ st ∧ kv.1 ∉ ["B"] ∧ kv.1 ∈ ["A", "B"]) ∧
      (∀ kv ∈ st, kv.2 = srefSum kv.1 c5Reaction.products
          - srefSum kv.1 c5Reaction.reactants)) :=
  ⟨by decide, stoichiometry_invariant c5Reaction ["B"] ["A", "B"] (by decide)⟩

/-- Witness for claim C6 at a concrete maximize objective over a known
reaction. -/
theorem objective_resolution_witness :
    ((∃ fo ∈ c6Objective.fluxObjectives, fo.reaction ∉ ["R1"]) →
        ∃ msg, applyObjective c6LO ["R1"] = .error (.cobraSBMLError msg)) ∧
    ((∀ fo ∈ c6Objective.fluxObjectives, fo.reaction ∈ ["R1"]) →
        ∃ coeffs, applyObjective c6LO ["R1"]
            = .ok (coeffs, if c6Objective.otype = "maximize" then "max" else "min") ∧
          ∀ rid, alookup coeffs rid = lastCoeff c6Objective.fluxObjectives rid) :=
  objective_resolution c6LO ["R1"] c6Objective rfl (Or.inl rfl)

/-- Witness for claim C8 at a one-reaction model with bounds -5 and 10,
resolving the upper bound 10 of that reaction. -/
theorem bound_deduplication_witness :
    ([c8Reaction] = [] → (-5 : Rat) = -1000 ∧ (10 : Rat) = 1000) ∧
    (∀ r ∈ [c8Reaction], (-5 : Rat) ≤ r.lower_bound ∧ r.upper_bound ≤ (10 : Rat)) ∧
    ([c8Reaction] ≠ [] →
      (∃ r ∈ [c8Reaction], r.lower_bound = (-5 : Rat)) ∧
      (∃ r ∈ [c8Reaction], r.upper_bound = (10 : Rat))) ∧
    ((10 : Rat) = -5 → create_bound (-5) 10 c8Reaction "upper_bound"
        = .ok ("cobra_default_lb", none)) ∧
    ((10 : Rat) ≠ -5 → (10 : Rat) = 0 → create_bound (-5) 10 c8Reaction "upper_bound"
        = .ok ("cobra_0_bound", none)) ∧
    ((10 : Rat) ≠ -5 → (10 : Rat) ≠ 0 → (10 : Rat) = 10 →
      create_bound (-5) 10 c8Reaction "upper_bound"
        = .ok ("cobra_default_ub", none)) ∧
    ((10 : Rat) ≠ -5 → (10 : Rat) ≠ 0 → (10 : Rat) ≠ 10 →
      create_bound (-5) 10 c8Reaction "upper_bound"
        = .ok ("R_" ++ c8Reaction.id ++ "_" ++ "upper_bound",
             some { id := "R_" ++ c8Reaction.id ++ "_" ++ "upper_bound", value := 10,
                    sboTerm := "SBO:0000625", constant := true })) :=
  bound_deduplication [c8Reaction] c8Reaction "upper_bound" 10 (-5) 10 rfl rfl

/-- Claim C9, counterexample: with the SBO term set (to 626) and one
conforming CV-term URI whose provider part is SBO, annotate_cobra_from_sbase
raises AttributeError instead of storing the entry the claim describes, so
the claim as stated fails at this input. -/
theorem annot_sbo_collision_cex :
    annotate_cobra_from_sbase [] c9CollisionSBase = .error PyExc.attributeError := by
  decide

/-- Witness for the amended claim C9 at a concrete SBase carrying an SBO
term and two conforming chebi URIs around a non-conforming one. -/
theorem annot_extraction_amended_witness :
    ∃ annot, annotate_cobra_from_sbase [] c9SBase = .ok annot ∧
      (∀ n, c9SBase.sboTerm = some n → alookup annot "SBO" = some (.int n)) ∧
      (∀ p, c9SBase.sboTerm = none ∨ p ≠ "SBO" →
          alookup annot p
            = encodeIds (pairsFor (c9Terms.flatten.filterMap parseIdentifiersUri) p)) :=
  annot_extraction_amended c9SBase c9Terms rfl (by decide)
